import Mathlib

/-!
# Treasury dues allocation engine — verification development

Shallow embedding of the monthly dues payment engine of `src/pages/Treasury.tsx`:
the fiscal calendar (`getMonthYear`), the single-payment distribution of
`handleSavePayment` (backfill / target / overflow passes), the editing path,
the quick-pay and advance-pay bulk strategies, the outstanding-balance and
accumulated-paid aggregates, and the distribution preview (`distributionInfo`).

Currency amounts (JS `number` holding decimal currency values) are modelled as `ℚ`.
The per-member ledger snapshot (the `payments` map restricted to one member,
keyed by `memberId-month-year`) is modelled as a lookup function
`Ledger : Nat → Nat → Option Payment` on (calendar month, calendar year);
for a fixed member the string key determines and is determined by that pair.
-/

namespace Logia

/-- The fiscal year window: the two calendar years spanned by the fiscal year
(`getFiscalYearInfo` in `dateUtils`). The engine only consumes the two year numbers. -/
structure FiscalCtx where
  currentCalendarYear : Nat
  nextCalendarYear : Nat
deriving DecidableEq

/-- `getMonthYear` of Treasury.tsx: fiscal index 0–5 ↦ months 7–12 of the current
calendar year, 6–11 ↦ months 1–6 of the next calendar year. -/
def getMonthYear (fc : FiscalCtx) (monthIndex : Nat) : Nat × Nat :=
  if monthIndex < 6 then (monthIndex + 7, fc.currentCalendarYear)
  else (monthIndex - 5, fc.nextCalendarYear)

/-- A `monthly_payments` row (the `Payment` interface of Treasury.tsx). -/
structure Payment where
  id : String := ""
  member_id : String
  month : Nat
  year : Nat
  amount : ℚ
  paid_at : Option String := none
  status : Option String := none
  receipt_url : Option String := none
  quick_pay_group_id : Option String := none
  payment_type : Option String := none
  notes : Option String := none
deriving DecidableEq

/-- One member's ledger snapshot: lookup by (calendar month, calendar year). -/
abbrev Ledger := Nat → Nat → Option Payment

/-- JS `ex?.amount || 0`. -/
def exAmount : Option Payment → ℚ
  | some e => e.amount
  | none => 0

/-- One element of the `updates` array built by the new-payment branch of
`handleSavePayment`: the slot, its resulting amount, and the pre-existing row if any. -/
structure Update where
  month : Nat
  year : Nat
  newAmt : ℚ
  existing : Option Payment := none
deriving DecidableEq

/-- One iteration of the backfill loop (Treasury.tsx lines 306–315) and of the
overflow loop (lines 323–332) of `handleSavePayment`; the two loop bodies are
identical. The loop condition `rem > 0` is modelled by skipping (the remainder
never increases, so skipping the rest equals breaking). -/
def distributeStep (pays : Ledger) (memberFee : ℚ) (fc : FiscalCtx)
    (st : ℚ × List Update) (i : Nat) : ℚ × List Update :=
  if 0 < st.1 then
    let my := getMonthYear fc i
    match pays my.1 my.2 with
    | some ex =>
        if ex.payment_type = some "pronto_pago_benefit" ∨ memberFee ≤ ex.amount then st
        else if memberFee - ex.amount ≤ 0 then st
        else (st.1 - min st.1 (memberFee - ex.amount),
              st.2 ++ [⟨my.1, my.2, ex.amount + min st.1 (memberFee - ex.amount), some ex⟩])
    | none =>
        if memberFee ≤ 0 then st
        else (st.1 - min st.1 memberFee, st.2 ++ [⟨my.1, my.2, min st.1 memberFee, none⟩])
  else st

/-- The target-month step of `handleSavePayment` (Treasury.tsx lines 317–321):
when money remains, apply `min(rem, fee)` to the selected slot. -/
def targetStep (memberFee : ℚ) (selMY : Nat × Nat) (st : ℚ × List Update) : ℚ × List Update :=
  if 0 < st.1 then
    (st.1 - min st.1 memberFee, st.2 ++ [⟨selMY.1, selMY.2, min st.1 memberFee, none⟩])
  else st

/-- The new-payment branch of `handleSavePayment` (Treasury.tsx lines 296–332):
backfill over indices `0..selIdx-1`, then the selected month, then overflow over
`selIdx+1..11`. Returns the `updates` plan. -/
def handleSavePaymentNew (pays : Ledger) (memberFee : ℚ) (fc : FiscalCtx)
    (selIdx : Nat) (parsedAmount : ℚ) : List Update :=
  (((List.range 12).drop (selIdx + 1)).foldl (distributeStep pays memberFee fc)
    (targetStep memberFee (getMonthYear fc selIdx)
      ((List.range selIdx).foldl (distributeStep pays memberFee fc) (parsedAmount, [])))).2

/-- The merged row written by the editing branch of `handleSavePayment`
(Treasury.tsx lines 271–279): `{ ...payment, ...paymentData, member_id, month, year }`
where `paymentData = { amount, paid_at, receipt_url, payment_type: 'regular', notes }`. -/
def editedPayment (p : Payment) (memberId : String) (selMonth selYear : Nat)
    (parsedAmount : ℚ) (date receiptUrl nts : Option String) : Payment :=
  { p with
      amount := parsedAmount
      paid_at := date
      receipt_url := receiptUrl
      payment_type := some "regular"
      notes := nts
      member_id := memberId
      month := selMonth
      year := selYear }

/-- Effect of the editing branch on the member's ledger snapshot:
only the selected slot's row is replaced. -/
def applyEdit (pays : Ledger) (selMonth selYear : Nat) (e : Payment) : Ledger :=
  fun m y => if m = selMonth ∧ y = selYear then some e else pays m y

/-- Outcome of `handleSavePayment` as visible to the caller; the source has no
validation path, so no validation constructor is ever produced by `handleSavePayment`. -/
inductive SaveOutcome
  | validationError (msg : String)
  | editSaved (updated : Payment)
  | distributed (plan : List Update)
deriving DecidableEq

/-- `handleSavePayment` (Treasury.tsx lines 259–382): the editing branch when the
target slot has a row, the distribution branch otherwise. `parsedAmount` models
`parseFloat(amount) || 0`; no check on it is performed by the source. -/
def handleSavePayment (pays : Ledger) (memberFee : ℚ) (fc : FiscalCtx) (selIdx : Nat)
    (targetPayment : Option Payment) (parsedAmount : ℚ)
    (date receiptUrl nts : Option String) (memberId : String) : SaveOutcome :=
  match targetPayment with
  | some p =>
      SaveOutcome.editSaved
        (editedPayment p memberId (getMonthYear fc selIdx).1 (getMonthYear fc selIdx).2
          parsedAmount date receiptUrl nts)
  | none => SaveOutcome.distributed (handleSavePaymentNew pays memberFee fc selIdx parsedAmount)

/-- `currentYearPending` of `handleQuickPay` (Treasury.tsx lines 460–465):
the fiscal slots of the window with no row, in fiscal-month order. -/
def pendingSlots (pays : Ledger) (fc : FiscalCtx) : List (Nat × Nat) :=
  ((List.range 12).filter
      (fun i => (pays (getMonthYear fc i).1 (getMonthYear fc i).2).isNone)).map
    (getMonthYear fc)

/-- A `pronto_pago` row pushed by `handleQuickPay` (Treasury.tsx lines 473–484). -/
def quickPayEntry (memberId : String) (amt : ℚ) (quickPayDate receiptUrl : Option String)
    (groupId : String) (s : Nat × Nat) : Payment :=
  { member_id := memberId, month := s.1, year := s.2, amount := amt,
    paid_at := quickPayDate, receipt_url := receiptUrl,
    quick_pay_group_id := some groupId, payment_type := some "pronto_pago",
    notes := some "Pago registrado mediante Pronto Pago." }

/-- The `pronto_pago_benefit` row pushed by `handleQuickPay` (Treasury.tsx lines 485–497). -/
def quickPayBenefitEntry (memberId : String) (quickPayDate receiptUrl : Option String)
    (groupId : String) (s : Nat × Nat) : Payment :=
  { member_id := memberId, month := s.1, year := s.2, amount := 0,
    paid_at := quickPayDate, receipt_url := receiptUrl,
    quick_pay_group_id := some groupId, payment_type := some "pronto_pago_benefit",
    notes := some "Pago registrado mediante Pronto Pago." }

/-- `handleQuickPay` (Treasury.tsx lines 443–499): validation, pending-slot scan,
up to 11 `pronto_pago` rows plus one `pronto_pago_benefit` row when a 12th empty
slot exists. Errors carry the toast messages of the source. -/
def handleQuickPay (pays : Ledger) (fc : FiscalCtx) (memberId : String)
    (parsedAmount : ℚ) (quickPayDate : Option String) (receiptUrl : Option String)
    (groupId : String) : Except String (List Payment) :=
  if parsedAmount ≤ 0 then Except.error "El monto debe ser mayor a 0"
  else if quickPayDate.isNone then Except.error "Debe seleccionar una fecha de pago"
  else
    let pending := pendingSlots pays fc
    if pending.isEmpty then
      Except.error "Este miembro ya tiene todos los pagos del ano logial actual registrados"
    else
      let monthsToPay := pending.take (min pending.length 11)
      let freeMonth := if pending.length ≥ 12 then pending[11]? else none
      let inserts := monthsToPay.map (quickPayEntry memberId parsedAmount quickPayDate
        receiptUrl groupId)
      match freeMonth with
      | some s =>
          Except.ok (inserts ++ [quickPayBenefitEntry memberId quickPayDate receiptUrl groupId s])
      | none => Except.ok inserts

/-- `handleAdvancePayment` (Treasury.tsx lines 542–567): one `adelantado` row per
requested slot at the member's monthly amount, all sharing the group id, date
and receipt. -/
def handleAdvancePayment (memberId : String) (monthlyAmount : ℚ)
    (selectedMonths : List (Nat × Nat)) (paymentDate : String) (receiptUrl : Option String)
    (groupId : String) : List Payment :=
  selectedMonths.map (fun s =>
    ({ member_id := memberId, month := s.1, year := s.2, amount := monthlyAmount,
       paid_at := some paymentDate, receipt_url := receiptUrl,
       quick_pay_group_id := some groupId, payment_type := some "adelantado",
       notes := some ("Pago registrado mediante Pago por Adelantado (" ++
         toString selectedMonths.length ++ " meses).") } : Payment))

/-- Modelled from the spec: the `AdvancePaymentDialog` component (not under `src/`)
supplies `totalAmount` to `handleAdvancePayment`; per §4.5 the total charged is
`monthlyFee × count(selectedMonths)`. -/
def advanceTotalAmount (monthlyAmount : ℚ) (selectedMonths : List (Nat × Nat)) : ℚ :=
  monthlyAmount * selectedMonths.length

/-- `totalAdeudado` of Treasury.tsx (lines 163–180), for one member: loop over the
12 fiscal slots adding the fee for an absent slot and the shortfall for a
non-benefit partial slot. -/
def totalAdeudado (pays : Ledger) (fc : FiscalCtx) (memberFee : ℚ) : ℚ :=
  (List.range 12).foldl (fun acc i =>
    match pays (getMonthYear fc i).1 (getMonthYear fc i).2 with
    | none => acc + memberFee
    | some payment =>
        if payment.payment_type ≠ some "pronto_pago_benefit" ∧ payment.amount < memberFee
        then acc + (memberFee - payment.amount)
        else acc) 0

/-- Per-slot outstanding amount as the spec states it (§4.2): `max(0, fee - existing)`,
an absent slot paying 0 and a `pronto_pago_benefit` slot contributing 0. Also the
per-slot deficit of the conservation property (§8). -/
def slotOutstanding (pays : Ledger) (memberFee : ℚ) (fc : FiscalCtx) (i : Nat) : ℚ :=
  match pays (getMonthYear fc i).1 (getMonthYear fc i).2 with
  | none => max 0 (memberFee - 0)
  | some p =>
      if p.payment_type = some "pronto_pago_benefit" then 0 else max 0 (memberFee - p.amount)

/-- `outstandingBalance` of the spec (§4.2): sum of `slotOutstanding` over the
12 fiscal slots; also `totalDeficitAcross12Months` of the conservation property. -/
def outstandingBalance (pays : Ledger) (memberFee : ℚ) (fc : FiscalCtx) : ℚ :=
  ((List.range 12).map (slotOutstanding pays memberFee fc)).sum

/-- `accumulatedTotal` of Treasury.tsx (lines 672–675): sum of `amount` over the
whole payments map (list of key/row pairs) restricted to keys of this member,
excluding `pronto_pago_benefit` rows. -/
def accumulatedTotal (paymentEntries : List (String × Payment)) (memberId : String) : ℚ :=
  ((paymentEntries.filter (fun kp =>
      kp.1.startsWith memberId &&
        !(kp.2.payment_type == some "pronto_pago_benefit"))).map
    (fun kp => kp.2.amount)).sum

/-- `existingAmount` of the spec's backfill wording ("0 if absent"). -/
def specExistingAmount (pays : Ledger) (s : Nat × Nat) : ℚ :=
  match pays s.1 s.2 with
  | some e => e.amount
  | none => 0

/-- Skip condition of the spec's backfill/overflow wording: a `quick_pay_benefit`
entry, or a slot whose existing amount already reaches the monthly fee. -/
def specSkipSlot (pays : Ledger) (memberFee : ℚ) (s : Nat × Nat) : Bool :=
  (match pays s.1 s.2 with
    | some e => decide (e.payment_type = some "pronto_pago_benefit")
    | none => false) ||
  decide (memberFee ≤ specExistingAmount pays s)

/-- Modelled from the spec (§4.3 steps 2 and 4): one scanning pass over a list of
slots, applying `min(remaining, fee - existingAmount)` to each non-skipped slot
and stopping once `remaining` reaches 0. -/
def specScan (pays : Ledger) (memberFee : ℚ) : List (Nat × Nat) → ℚ → List Update × ℚ
  | [], rem => ([], rem)
  | s :: rest, rem =>
      if rem = 0 then ([], rem)
      else if specSkipSlot pays memberFee s then specScan pays memberFee rest rem
      else
        let applied := min rem (memberFee - specExistingAmount pays s)
        let next := specScan pays memberFee rest (rem - applied)
        (⟨s.1, s.2, specExistingAmount pays s + applied, pays s.1 s.2⟩ :: next.1, next.2)

/-- Modelled from the spec (§4.3): the three-pass allocation plan — backfill over
the fiscal months strictly before the target, the target month at
`min(remaining, fee)`, then overflow over the months strictly after the target. -/
def specAllocate (pays : Ledger) (memberFee : ℚ) (fc : FiscalCtx)
    (selIdx : Nat) (lumpSum : ℚ) : List Update :=
  let beforeSlots := ((List.range 12).filter (fun i => decide (i < selIdx))).map (getMonthYear fc)
  let afterSlots := ((List.range 12).filter (fun i => decide (selIdx < i))).map (getMonthYear fc)
  let backfill := specScan pays memberFee beforeSlots lumpSum
  let targetStep : List Update × ℚ :=
    if 0 < backfill.2 then
      ([⟨(getMonthYear fc selIdx).1, (getMonthYear fc selIdx).2, min backfill.2 memberFee, none⟩],
       backfill.2 - min backfill.2 memberFee)
    else ([], backfill.2)
  let overflow := specScan pays memberFee afterSlots targetStep.2
  backfill.1 ++ targetStep.1 ++ overflow.1

/-- One line of the `distributionInfo` preview (Treasury.tsx lines 183–209),
keeping the slot and the monetary figure shown: the applied amount for a
backfill line (`+$a (completar)`) and for the target line (`$a`), the resulting
total for an overflow line (`$(existing+a) (excedente)`). -/
inductive PreviewLine
  | completar (month year : Nat) (applied : ℚ)
  | target (month year : Nat) (applied : ℚ)
  | excedente (month year : Nat) (newTotal : ℚ)
deriving DecidableEq

/-- One iteration of the preview's backfill loop (Treasury.tsx lines 191–198). -/
def previewBackfillStep (pays : Ledger) (memberFee : ℚ) (fc : FiscalCtx)
    (st : ℚ × List PreviewLine) (i : Nat) : ℚ × List PreviewLine :=
  if 0 < st.1 then
    let my := getMonthYear fc i
    match pays my.1 my.2 with
    | some ex =>
        if ex.payment_type = some "pronto_pago_benefit" ∨ memberFee ≤ ex.amount then st
        else if 0 < memberFee - ex.amount then
          (st.1 - min st.1 (memberFee - ex.amount),
           st.2 ++ [PreviewLine.completar my.1 my.2 (min st.1 (memberFee - ex.amount))])
        else st
    | none =>
        if 0 < memberFee then
          (st.1 - min st.1 memberFee, st.2 ++ [PreviewLine.completar my.1 my.2 (min st.1 memberFee)])
        else st
  else st

/-- One iteration of the preview's overflow loop (Treasury.tsx lines 200–207);
the line records the resulting total `existing + a`. -/
def previewOverflowStep (pays : Ledger) (memberFee : ℚ) (fc : FiscalCtx)
    (st : ℚ × List PreviewLine) (i : Nat) : ℚ × List PreviewLine :=
  if 0 < st.1 then
    let my := getMonthYear fc i
    match pays my.1 my.2 with
    | some ex =>
        if ex.payment_type = some "pronto_pago_benefit" ∨ memberFee ≤ ex.amount then st
        else if 0 < memberFee - ex.amount then
          (st.1 - min st.1 (memberFee - ex.amount),
           st.2 ++ [PreviewLine.excedente my.1 my.2 (ex.amount + min st.1 (memberFee - ex.amount))])
        else st
    | none =>
        if 0 < memberFee then
          (st.1 - min st.1 memberFee,
           st.2 ++ [PreviewLine.excedente my.1 my.2 (0 + min st.1 memberFee)])
        else st
  else st

/-- The target-month line of the preview (Treasury.tsx line 199). -/
def previewTargetStep (memberFee : ℚ) (selMY : Nat × Nat)
    (st : ℚ × List PreviewLine) : ℚ × List PreviewLine :=
  if 0 < st.1 then
    (st.1 - min st.1 memberFee,
     st.2 ++ [PreviewLine.target selMY.1 selMY.2 (min st.1 memberFee)])
  else st

/-- The `affected` list built by `distributionInfo` before its length gate. -/
def previewAffected (pays : Ledger) (memberFee : ℚ) (fc : FiscalCtx)
    (selIdx : Nat) (parsedAmt : ℚ) : List PreviewLine :=
  (((List.range 12).drop (selIdx + 1)).foldl (previewOverflowStep pays memberFee fc)
    (previewTargetStep memberFee (getMonthYear fc selIdx)
      ((List.range selIdx).foldl (previewBackfillStep pays memberFee fc) (parsedAmt, [])))).2

/-- `distributionInfo` (Treasury.tsx lines 183–209): `none` when the target slot
already has a row or the parsed amount is not positive; otherwise the affected
list, displayed only when it has more than one line. -/
def distributionInfo (pays : Ledger) (memberFee : ℚ) (fc : FiscalCtx) (selIdx : Nat)
    (parsedAmt : ℚ) (targetPayment : Option Payment) : Option (List PreviewLine) :=
  if targetPayment.isSome then none
  else if parsedAmt ≤ 0 then none
  else
    let affected := previewAffected pays memberFee fc selIdx parsedAmt
    if affected.length > 1 then some affected else none

/-- Slot of a preview line. -/
def lineSlot : PreviewLine → Nat × Nat
  | .completar m y _ => (m, y)
  | .target m y _ => (m, y)
  | .excedente m y _ => (m, y)

/-- Amount a preview line applies to its slot (an overflow line shows the
resulting total, so its applied amount is that total minus the existing amount). -/
def lineDelta (pays : Ledger) : PreviewLine → ℚ
  | .completar _ _ a => a
  | .target _ _ a => a
  | .excedente m y t => t - exAmount (pays m y)

/-- Amount a plan mutation applies to its slot, relative to the ledger snapshot. -/
def updLedgerDelta (pays : Ledger) (u : Update) : ℚ :=
  u.newAmt - exAmount (pays u.month u.year)

/-- The 12 (month, year) pairs of the fiscal window as the spec words them (§4.1):
calendar months 7–12 of the current year then 1–6 of the next year. -/
def fiscalWindow (fc : FiscalCtx) : List (Nat × Nat) :=
  ((List.range 6).map (fun k => (k + 7, fc.currentCalendarYear))) ++
    ((List.range 6).map (fun k => (k + 1, fc.nextCalendarYear)))

/-! ## Arithmetic helpers for the greedy passes -/

/-- Subtracting the capped application is truncated subtraction. -/
lemma sub_min_eq_max (r d : ℚ) : r - min r d = max 0 (r - d) := by
  rcases le_total r d with h | h
  · rw [min_eq_left h, max_eq_left (by linarith : r - d ≤ 0), sub_self]
  · rw [min_eq_right h, max_eq_right (by linarith : (0:ℚ) ≤ r - d)]

/-- Truncated subtraction composes over successive caps. -/
lemma max_zero_sub_comp (x b : ℚ) (hb : 0 ≤ b) : max 0 (max 0 x - b) = max 0 (x - b) := by
  rcases le_total 0 x with h | h
  · rw [max_eq_right h]
  · rw [max_eq_left h, max_eq_left (by linarith : x - b ≤ 0),
      max_eq_left (by linarith : (0:ℚ) - b ≤ 0)]

lemma slotOutstanding_nonneg (pays : Ledger) (fee : ℚ) (fc : FiscalCtx) (i : Nat) :
    0 ≤ slotOutstanding pays fee fc i := by
  unfold slotOutstanding
  rcases pays (getMonthYear fc i).1 (getMonthYear fc i).2 with _ | p
  · exact le_max_left 0 _
  · dsimp only
    split_ifs
    · exact le_refl 0
    · exact le_max_left 0 _

/-! ## Step characterisation of the backfill/overflow loop body -/

/-- Case-split view of one loop iteration: the step either leaves the state
unchanged (skip) or appends exactly one mutation with the greedy application. -/
lemma distributeStep_cases (pays : Ledger) (fee : ℚ) (fc : FiscalCtx) (i : Nat)
    (st : ℚ × List Update) :
    distributeStep pays fee fc st i = st ∨
      ∃ d ex, distributeStep pays fee fc st i =
          (st.1 - min st.1 d, st.2 ++ [⟨(getMonthYear fc i).1, (getMonthYear fc i).2,
            exAmount ex + min st.1 d, ex⟩]) ∧
        pays (getMonthYear fc i).1 (getMonthYear fc i).2 = ex ∧
        d = fee - exAmount ex ∧ 0 < d ∧ 0 < st.1 ∧
        (∀ p, ex = some p → p.payment_type ≠ some "pronto_pago_benefit" ∧ p.amount < fee) := by
  by_cases h0 : 0 < st.1
  · rcases hpay : pays (getMonthYear fc i).1 (getMonthYear fc i).2 with _ | ex
    · by_cases hfee : fee ≤ 0
      · left
        simp only [distributeStep, hpay, if_pos h0, if_pos hfee]
      · right
        refine ⟨fee, none, ?_, rfl, by simp [exAmount], not_le.mp hfee, h0,
          by intro p hp; cases hp⟩
        simp only [distributeStep, hpay, if_pos h0, if_neg hfee, exAmount]
        rw [zero_add]
    · by_cases hb : ex.payment_type = some "pronto_pago_benefit"
      · left
        simp only [distributeStep, hpay, if_pos h0, if_pos (Or.inl hb : _ ∨ fee ≤ ex.amount)]
      · by_cases hfull : fee ≤ ex.amount
        · left
          simp only [distributeStep, hpay, if_pos h0, if_pos (Or.inr hfull : _ ∨ fee ≤ ex.amount)]
        · right
          have hns : ¬(ex.payment_type = some "pronto_pago_benefit" ∨ fee ≤ ex.amount) :=
            not_or.mpr ⟨hb, hfull⟩
          have hd : 0 < fee - ex.amount := by
            push_neg at hfull
            linarith
          refine ⟨fee - ex.amount, some ex, ?_, rfl, by simp [exAmount], hd, h0, ?_⟩
          · simp only [distributeStep, hpay, if_pos h0, if_neg hns,
              if_neg (not_le.mpr hd), exAmount]
          · rintro p hp
            cases hp
            push_neg at hfull
            exact ⟨hb, hfull⟩
  · left
    simp only [distributeStep, if_neg h0]

/-- Remainder after one loop iteration: truncated subtraction of the slot's deficit. -/
lemma distributeStep_fst (pays : Ledger) (fee : ℚ) (fc : FiscalCtx) (i : Nat)
    (st : ℚ × List Update) (h : 0 ≤ st.1) :
    (distributeStep pays fee fc st i).1 = max 0 (st.1 - slotOutstanding pays fee fc i) := by
  have hD := slotOutstanding_nonneg pays fee fc i
  by_cases h0 : 0 < st.1
  · rcases hpay : pays (getMonthYear fc i).1 (getMonthYear fc i).2 with _ | ex
    · by_cases hfee : fee ≤ 0
      · simp only [distributeStep, slotOutstanding, hpay, if_pos h0, if_pos hfee, sub_zero,
          max_eq_left hfee, sub_zero, max_eq_right h]
      · push_neg at hfee
        simp only [distributeStep, slotOutstanding, hpay, if_pos h0, if_neg (not_le.mpr hfee),
          sub_zero, max_eq_right hfee.le]
        exact sub_min_eq_max _ _
    · by_cases hb : ex.payment_type = some "pronto_pago_benefit"
      · simp only [distributeStep, slotOutstanding, hpay, if_pos h0,
          if_pos (Or.inl hb : _ ∨ fee ≤ ex.amount), if_pos hb, sub_zero, max_eq_right h]
      · by_cases hfull : fee ≤ ex.amount
        · simp only [distributeStep, slotOutstanding, hpay, if_pos h0,
            if_pos (Or.inr hfull : _ ∨ fee ≤ ex.amount), if_neg hb,
            max_eq_left (sub_nonpos.mpr hfull), sub_zero, max_eq_right h]
        · have hns : ¬(ex.payment_type = some "pronto_pago_benefit" ∨ fee ≤ ex.amount) :=
            not_or.mpr ⟨hb, hfull⟩
          push_neg at hfull
          simp only [distributeStep, slotOutstanding, hpay, if_pos h0, if_neg hns,
            if_neg (not_le.mpr (by linarith : (0:ℚ) < fee - ex.amount)), if_neg hb,
            max_eq_right (by linarith : (0:ℚ) ≤ fee - ex.amount)]
          exact sub_min_eq_max _ _
  · have h1 : st.1 = 0 := le_antisymm (not_lt.mp h0) h
    have hL : distributeStep pays fee fc st i = st := by
      simp only [distributeStep, if_neg h0]
    rw [hL, h1, zero_sub, max_eq_left (neg_nonpos.mpr hD)]

/-- Money conservation for one loop iteration: remainder plus applied deltas is invariant. -/
lemma distributeStep_sum (pays : Ledger) (fee : ℚ) (fc : FiscalCtx) (i : Nat)
    (st : ℚ × List Update) :
    (distributeStep pays fee fc st i).1 +
        (((distributeStep pays fee fc st i).2.map (updLedgerDelta pays)).sum) =
      st.1 + ((st.2.map (updLedgerDelta pays)).sum) := by
  rcases distributeStep_cases pays fee fc i st with h | ⟨d, ex, h, hpay, _, _, _, _⟩
  · rw [h]
  · rw [h]
    simp only [List.map_append, List.sum_append, List.map_cons, List.map_nil,
      List.sum_cons, List.sum_nil, updLedgerDelta, hpay]
    ring

/-- A slot is eligible when it has no row, or a non-benefit row below the fee. -/
def EligibleSlot (pays : Ledger) (fee : ℚ) (m y : Nat) : Prop :=
  ∀ ex, pays m y = some ex →
    ex.payment_type ≠ some "pronto_pago_benefit" ∧ ex.amount < fee

/-- Every mutation appended by one loop iteration targets an eligible slot and
records the snapshot row it read. -/
lemma distributeStep_mem (pays : Ledger) (fee : ℚ) (fc : FiscalCtx) (i : Nat)
    (st : ℚ × List Update) (u : Update) (hu : u ∈ (distributeStep pays fee fc st i).2) :
    u ∈ st.2 ∨
      (EligibleSlot pays fee u.month u.year ∧ u.existing = pays u.month u.year) := by
  rcases distributeStep_cases pays fee fc i st with h | ⟨d, ex, h, hpay, _, _, _, hel⟩
  · rw [h] at hu
    exact Or.inl hu
  · rw [h] at hu
    rcases List.mem_append.mp hu with h1 | h1
    · exact Or.inl h1
    · rcases List.mem_singleton.mp h1 with rfl
      refine Or.inr ⟨fun p hp => ?_, hpay.symm⟩
      exact hel p (hpay.symm.trans hp)

/-! ## Fold lemmas over the index lists -/

lemma sum_slotOutstanding_nonneg (pays : Ledger) (fee : ℚ) (fc : FiscalCtx)
    (idxs : List Nat) : 0 ≤ (idxs.map (slotOutstanding pays fee fc)).sum := by
  refine List.sum_nonneg fun x hx => ?_
  rcases List.mem_map.mp hx with ⟨j, _, rfl⟩
  exact slotOutstanding_nonneg pays fee fc j

/-- Remainder after a whole pass: truncated subtraction of the summed deficits. -/
lemma foldl_distribute_fst (pays : Ledger) (fee : ℚ) (fc : FiscalCtx) (idxs : List Nat) :
    ∀ st : ℚ × List Update, 0 ≤ st.1 →
      (idxs.foldl (distributeStep pays fee fc) st).1 =
        max 0 (st.1 - (idxs.map (slotOutstanding pays fee fc)).sum) := by
  induction idxs with
  | nil =>
      intro st h
      simp [max_eq_right h]
  | cons i rest ih =>
      intro st h
      rw [List.foldl_cons,
        ih _ (by rw [distributeStep_fst pays fee fc i st h]; exact le_max_left _ _),
        distributeStep_fst pays fee fc i st h, List.map_cons, List.sum_cons,
        max_zero_sub_comp _ _ (sum_slotOutstanding_nonneg pays fee fc rest), sub_sub]

/-- Money conservation over a whole pass. -/
lemma foldl_distribute_sum (pays : Ledger) (fee : ℚ) (fc : FiscalCtx) (idxs : List Nat) :
    ∀ st : ℚ × List Update,
      (idxs.foldl (distributeStep pays fee fc) st).1 +
          (((idxs.foldl (distributeStep pays fee fc) st).2.map (updLedgerDelta pays)).sum) =
        st.1 + ((st.2.map (updLedgerDelta pays)).sum) := by
  induction idxs with
  | nil => intro st; rfl
  | cons i rest ih =>
      intro st
      rw [List.foldl_cons, ih _, distributeStep_sum]

/-- Every mutation produced by a whole pass targets an eligible slot and records
the snapshot row. -/
lemma foldl_distribute_mem (pays : Ledger) (fee : ℚ) (fc : FiscalCtx) (idxs : List Nat) :
    ∀ (st : ℚ × List Update) (u : Update),
      u ∈ (idxs.foldl (distributeStep pays fee fc) st).2 →
      u ∈ st.2 ∨
        (EligibleSlot pays fee u.month u.year ∧ u.existing = pays u.month u.year) := by
  induction idxs with
  | nil => intro st u hu; exact Or.inl hu
  | cons i rest ih =>
      intro st u hu
      rw [List.foldl_cons] at hu
      rcases ih _ u hu with h | h
      · exact distributeStep_mem pays fee fc i st u h
      · exact Or.inr h

/-- Splitting the window sum at the target index. -/
lemma range12_sum_split (f : Nat → ℚ) (k : Nat) (hk : k < 12) :
    ((List.range 12).map f).sum =
      ((List.range k).map f).sum + f k + (((List.range 12).drop (k + 1)).map f).sum := by
  conv_lhs => rw [← List.take_append_drop k (List.range 12)]
  rw [List.map_append, List.sum_append, List.take_range,
    List.drop_eq_getElem_cons (by simpa using hk), List.getElem_range,
    List.map_cons, List.sum_cons, min_eq_left hk.le]
  ring

/-- Final remainder arithmetic: what was applied is the lump sum capped at the total. -/
lemma sub_max_zero_sub (L T : ℚ) : L - max 0 (L - T) = min L T := by
  rcases le_total L T with h | h
  · rw [max_eq_left (by linarith : L - T ≤ 0), min_eq_left h, sub_zero]
  · rw [max_eq_right (by linarith : (0:ℚ) ≤ L - T), min_eq_right h]
    ring

/-- Characterisation of the target step when the target slot is empty. -/
lemma targetStep_facts (pays : Ledger) (fee : ℚ) (selMY : Nat × Nat)
    (st : ℚ × List Update) (h : 0 ≤ st.1) (hfee : 0 ≤ fee)
    (htarget : pays selMY.1 selMY.2 = none) :
    (targetStep fee selMY st).1 = max 0 (st.1 - fee) ∧
      (targetStep fee selMY st).1 +
          (((targetStep fee selMY st).2.map (updLedgerDelta pays)).sum) =
        st.1 + ((st.2.map (updLedgerDelta pays)).sum) ∧
      ∀ u ∈ (targetStep fee selMY st).2,
        u ∈ st.2 ∨
          (EligibleSlot pays fee u.month u.year ∧ u.existing = pays u.month u.year) := by
  by_cases h0 : 0 < st.1
  · simp only [targetStep, if_pos h0]
    refine ⟨sub_min_eq_max _ _, ?_, ?_⟩
    · simp only [List.map_append, List.sum_append, List.map_cons, List.map_nil,
        List.sum_cons, List.sum_nil, updLedgerDelta, htarget, exAmount]
      ring
    · intro u hu
      rcases List.mem_append.mp hu with h1 | h1
      · exact Or.inl h1
      · rcases List.mem_singleton.mp h1 with rfl
        refine Or.inr ⟨fun p hp => ?_, htarget.symm⟩
        rw [htarget] at hp
        cases hp
  · have h1 : st.1 = 0 := le_antisymm (not_lt.mp h0) h
    simp only [targetStep, if_neg h0]
    refine ⟨?_, by trivial, fun u hu => Or.inl hu⟩
    rw [h1, zero_sub, max_eq_left (neg_nonpos.mpr hfee)]

/-- Backfill-pass state of the new-payment branch. -/
def backfillState (pays : Ledger) (fee : ℚ) (fc : FiscalCtx) (selIdx : Nat) (L : ℚ) :
    ℚ × List Update :=
  (List.range selIdx).foldl (distributeStep pays fee fc) (L, [])

/-- State after the target-month step. -/
def afterTargetState (pays : Ledger) (fee : ℚ) (fc : FiscalCtx) (selIdx : Nat) (L : ℚ) :
    ℚ × List Update :=
  targetStep fee (getMonthYear fc selIdx) (backfillState pays fee fc selIdx L)

/-- Final state after the overflow pass. -/
def finalState (pays : Ledger) (fee : ℚ) (fc : FiscalCtx) (selIdx : Nat) (L : ℚ) :
    ℚ × List Update :=
  ((List.range 12).drop (selIdx + 1)).foldl (distributeStep pays fee fc)
    (afterTargetState pays fee fc selIdx L)

lemma handleSavePaymentNew_eq_final (pays : Ledger) (fee : ℚ) (fc : FiscalCtx)
    (selIdx : Nat) (L : ℚ) :
    handleSavePaymentNew pays fee fc selIdx L = (finalState pays fee fc selIdx L).2 := rfl

/-- C2: for a single-payment allocation with empty target slot and positive lump sum,
the sum of the per-slot deltas of the plan equals `min(lumpSum, total deficit across
the 12 fiscal months)` (a `pronto_pago_benefit` slot and a fully-paid slot contribute
0 deficit), and no already-fully-paid or benefit slot receives any allocation. -/
theorem single_payment_conservation (pays : Ledger) (fee lumpSum : ℚ) (fc : FiscalCtx)
    (selIdx : Nat) (hL : 0 < lumpSum) (hfee : 0 ≤ fee) (hsel : selIdx < 12)
    (htarget : pays (getMonthYear fc selIdx).1 (getMonthYear fc selIdx).2 = none) :
    (((handleSavePaymentNew pays fee fc selIdx lumpSum).map (updLedgerDelta pays)).sum =
        min lumpSum (outstandingBalance pays fee fc)) ∧
      ∀ u ∈ handleSavePaymentNew pays fee fc selIdx lumpSum,
        ∀ ex, pays u.month u.year = some ex →
          ex.payment_type ≠ some "pronto_pago_benefit" ∧ ex.amount < fee := by
  have hSa := sum_slotOutstanding_nonneg pays fee fc ((List.range 12).drop (selIdx + 1))
  have hDtar : slotOutstanding pays fee fc selIdx = fee := by
    simp [slotOutstanding, htarget, max_eq_right hfee]
  have h1fst : (backfillState pays fee fc selIdx lumpSum).1 =
      max 0 (lumpSum - ((List.range selIdx).map (slotOutstanding pays fee fc)).sum) :=
    foldl_distribute_fst pays fee fc (List.range selIdx) (lumpSum, ([] : List Update)) hL.le
  have h1nn : 0 ≤ (backfillState pays fee fc selIdx lumpSum).1 := by
    rw [h1fst]
    exact le_max_left _ _
  have h1sum : (backfillState pays fee fc selIdx lumpSum).1 +
      (((backfillState pays fee fc selIdx lumpSum).2.map (updLedgerDelta pays)).sum) =
        lumpSum := by
    have h := foldl_distribute_sum pays fee fc (List.range selIdx) (lumpSum, ([] : List Update))
    simpa [backfillState] using h
  obtain ⟨h2fst, h2sum, h2mem⟩ :
      (afterTargetState pays fee fc selIdx lumpSum).1 =
          max 0 ((backfillState pays fee fc selIdx lumpSum).1 - fee) ∧
        (afterTargetState pays fee fc selIdx lumpSum).1 +
            (((afterTargetState pays fee fc selIdx lumpSum).2.map (updLedgerDelta pays)).sum) =
          (backfillState pays fee fc selIdx lumpSum).1 +
            (((backfillState pays fee fc selIdx lumpSum).2.map (updLedgerDelta pays)).sum) ∧
        ∀ u ∈ (afterTargetState pays fee fc selIdx lumpSum).2,
          u ∈ (backfillState pays fee fc selIdx lumpSum).2 ∨
            (EligibleSlot pays fee u.month u.year ∧ u.existing = pays u.month u.year) :=
    targetStep_facts pays fee (getMonthYear fc selIdx)
      (backfillState pays fee fc selIdx lumpSum) h1nn hfee htarget
  have h2nn : 0 ≤ (afterTargetState pays fee fc selIdx lumpSum).1 := by
    rw [h2fst]
    exact le_max_left _ _
  have h3fst : (finalState pays fee fc selIdx lumpSum).1 =
      max 0 ((afterTargetState pays fee fc selIdx lumpSum).1 -
        (((List.range 12).drop (selIdx + 1)).map (slotOutstanding pays fee fc)).sum) :=
    foldl_distribute_fst pays fee fc ((List.range 12).drop (selIdx + 1))
      (afterTargetState pays fee fc selIdx lumpSum) h2nn
  have h3sum : (finalState pays fee fc selIdx lumpSum).1 +
      (((finalState pays fee fc selIdx lumpSum).2.map (updLedgerDelta pays)).sum) =
        (afterTargetState pays fee fc selIdx lumpSum).1 +
          (((afterTargetState pays fee fc selIdx lumpSum).2.map (updLedgerDelta pays)).sum) :=
    foldl_distribute_sum pays fee fc ((List.range 12).drop (selIdx + 1))
      (afterTargetState pays fee fc selIdx lumpSum)
  have hrem : (finalState pays fee fc selIdx lumpSum).1 =
      max 0 (lumpSum - outstandingBalance pays fee fc) := by
    rw [h3fst, h2fst, max_zero_sub_comp _ _ hSa, h1fst, sub_sub,
      max_zero_sub_comp _ _ (add_nonneg hfee hSa)]
    congr 1
    rw [outstandingBalance, range12_sum_split (slotOutstanding pays fee fc) selIdx hsel, hDtar]
    ring
  constructor
  · have hsumfinal : (((finalState pays fee fc selIdx lumpSum).2.map
        (updLedgerDelta pays)).sum) = lumpSum - (finalState pays fee fc selIdx lumpSum).1 := by
      linarith [h3sum, h2sum, h1sum]
    rw [handleSavePaymentNew_eq_final, hsumfinal, hrem, sub_max_zero_sub]
  · intro u hu
    rw [handleSavePaymentNew_eq_final] at hu
    have hu3 : u ∈ (((List.range 12).drop (selIdx + 1)).foldl (distributeStep pays fee fc)
        (afterTargetState pays fee fc selIdx lumpSum)).2 := hu
    rcases foldl_distribute_mem pays fee fc ((List.range 12).drop (selIdx + 1))
        (afterTargetState pays fee fc selIdx lumpSum) u hu3 with h2' | h2'
    · rcases h2mem u h2' with h1' | h1'
      · have hu1 : u ∈ ((List.range selIdx).foldl (distributeStep pays fee fc)
            (lumpSum, ([] : List Update))).2 := h1'
        rcases foldl_distribute_mem pays fee fc (List.range selIdx)
            (lumpSum, ([] : List Update)) u hu1 with h0' | h0'
        · cases h0'
        · exact h0'.1
      · exact h1'.1
    · exact h2'.1

/-! ## Equivalence of the save distribution with the spec's three passes -/

lemma specScan_zero (pays : Ledger) (fee : ℚ) (l : List (Nat × Nat)) :
    specScan pays fee l 0 = ([], 0) := by
  cases l with
  | nil => rfl
  | cons s rest => simp [specScan]

lemma specScan_snd_nonneg (pays : Ledger) (fee : ℚ) (l : List (Nat × Nat)) :
    ∀ rem : ℚ, 0 ≤ rem → 0 ≤ (specScan pays fee l rem).2 := by
  induction l with
  | nil => intro rem h; exact h
  | cons s rest ih =>
      intro rem h
      by_cases h0 : rem = 0
      · subst h0
        simp [specScan]
      · by_cases hs : specSkipSlot pays fee s = true
        · simp only [specScan, if_neg h0, if_pos hs]
          exact ih rem h
        · simp only [specScan, if_neg h0, if_neg hs]
          exact ih _ (by
            have := min_le_left rem (fee - specExistingAmount pays s)
            linarith)

/-- Pass-wide agreement of the save loop with the spec's scan: same remainder,
and the mutations are appended in the same order. -/
lemma scan_eq (pays : Ledger) (fee : ℚ) (fc : FiscalCtx) (idxs : List Nat) :
    ∀ (rem : ℚ) (us : List Update), 0 ≤ rem →
      idxs.foldl (distributeStep pays fee fc) (rem, us) =
        ((specScan pays fee (idxs.map (getMonthYear fc)) rem).2,
         us ++ (specScan pays fee (idxs.map (getMonthYear fc)) rem).1) := by
  induction idxs with
  | nil =>
      intro rem us h
      simp [specScan]
  | cons i rest ih =>
      intro rem us h
      rw [List.map_cons, List.foldl_cons]
      by_cases h0 : rem = 0
      · subst h0
        have hstep : distributeStep pays fee fc (0, us) i = (0, us) := by
          simp [distributeStep]
        rw [hstep, ih 0 us le_rfl, specScan_zero]
        simp [specScan, specScan_zero]
      · have hpos : 0 < rem := lt_of_le_of_ne h (Ne.symm h0)
        rcases hpay : pays (getMonthYear fc i).1 (getMonthYear fc i).2 with _ | ex
        · by_cases hfee : fee ≤ 0
          · have hskip : specSkipSlot pays fee (getMonthYear fc i) = true := by
              simp [specSkipSlot, specExistingAmount, hpay, hfee]
            have hstep : distributeStep pays fee fc (rem, us) i = (rem, us) := by
              simp only [distributeStep, hpay, if_pos hpos, if_pos hfee]
            rw [hstep, ih rem us h]
            simp only [specScan, if_neg h0, if_pos hskip]
          · have hns : ¬(specSkipSlot pays fee (getMonthYear fc i) = true) := by
              simp [specSkipSlot, specExistingAmount, hpay, hfee]
            have hstep : distributeStep pays fee fc (rem, us) i =
                (rem - min rem fee,
                 us ++ [⟨(getMonthYear fc i).1, (getMonthYear fc i).2, min rem fee, none⟩]) := by
              simp only [distributeStep, hpay, if_pos hpos, if_neg hfee]
            rw [hstep, ih _ _ (by
              have := min_le_left rem fee
              linarith)]
            simp only [specScan, if_neg h0, if_neg hns, specExistingAmount, hpay, sub_zero,
              zero_add]
            simp
        · by_cases hb : ex.payment_type = some "pronto_pago_benefit"
          · have hskip : specSkipSlot pays fee (getMonthYear fc i) = true := by
              simp [specSkipSlot, specExistingAmount, hpay, hb]
            have hstep : distributeStep pays fee fc (rem, us) i = (rem, us) := by
              simp only [distributeStep, hpay, if_pos hpos,
                if_pos (Or.inl hb : _ ∨ fee ≤ ex.amount)]
            rw [hstep, ih rem us h]
            simp only [specScan, if_neg h0, if_pos hskip]
          · by_cases hfull : fee ≤ ex.amount
            · have hskip : specSkipSlot pays fee (getMonthYear fc i) = true := by
                simp [specSkipSlot, specExistingAmount, hpay, hfull]
              have hstep : distributeStep pays fee fc (rem, us) i = (rem, us) := by
                simp only [distributeStep, hpay, if_pos hpos,
                  if_pos (Or.inr hfull : ex.payment_type = some "pronto_pago_benefit" ∨ _)]
              rw [hstep, ih rem us h]
              simp only [specScan, if_neg h0, if_pos hskip]
            · have hns : ¬(specSkipSlot pays fee (getMonthYear fc i) = true) := by
                simp [specSkipSlot, specExistingAmount, hpay, hb, hfull]
              have hlt : 0 < fee - ex.amount := by
                push_neg at hfull
                linarith
              have hstep : distributeStep pays fee fc (rem, us) i =
                  (rem - min rem (fee - ex.amount),
                   us ++ [⟨(getMonthYear fc i).1, (getMonthYear fc i).2,
                     ex.amount + min rem (fee - ex.amount), some ex⟩]) := by
                simp only [distributeStep, hpay, if_pos hpos,
                  if_neg (not_or.mpr ⟨hb, hfull⟩), if_neg (not_le.mpr hlt)]
              rw [hstep, ih _ _ (by
                have := min_le_left rem (fee - ex.amount)
                linarith)]
              simp only [specScan, if_neg h0, if_neg hns, specExistingAmount, hpay]
              simp

lemma range12_filter_lt (k : Nat) (hk : k < 12) :
    (List.range 12).filter (fun i => decide (i < k)) = List.range k := by
  interval_cases k <;> decide

lemma range12_filter_gt (k : Nat) (hk : k < 12) :
    (List.range 12).filter (fun i => decide (k < i)) = (List.range 12).drop (k + 1) := by
  interval_cases k <;> decide

/-- C1: on an empty target slot with positive lump sum, the plan produced by the
new-payment branch is exactly the spec's three passes: backfill before the target,
`min(remaining, fee)` on the target, overflow after it. -/
theorem single_payment_three_pass (pays : Ledger) (fee lumpSum : ℚ) (fc : FiscalCtx)
    (selIdx : Nat) (hL : 0 < lumpSum) (hsel : selIdx < 12)
    (htarget : pays (getMonthYear fc selIdx).1 (getMonthYear fc selIdx).2 = none) :
    handleSavePaymentNew pays fee fc selIdx lumpSum = specAllocate pays fee fc selIdx lumpSum := by
  have hB2 : 0 ≤ (specScan pays fee ((List.range selIdx).map (getMonthYear fc)) lumpSum).2 :=
    specScan_snd_nonneg pays fee _ lumpSum hL.le
  rw [handleSavePaymentNew_eq_final]
  unfold finalState afterTargetState backfillState specAllocate
  rw [range12_filter_lt selIdx hsel, range12_filter_gt selIdx hsel,
    scan_eq pays fee fc (List.range selIdx) lumpSum [] hL.le, List.nil_append]
  by_cases h2 : 0 < (specScan pays fee ((List.range selIdx).map (getMonthYear fc)) lumpSum).2
  · rw [show targetStep fee (getMonthYear fc selIdx)
        ((specScan pays fee ((List.range selIdx).map (getMonthYear fc)) lumpSum).2,
         (specScan pays fee ((List.range selIdx).map (getMonthYear fc)) lumpSum).1) =
        ((specScan pays fee ((List.range selIdx).map (getMonthYear fc)) lumpSum).2 -
            min (specScan pays fee ((List.range selIdx).map (getMonthYear fc)) lumpSum).2 fee,
          (specScan pays fee ((List.range selIdx).map (getMonthYear fc)) lumpSum).1 ++
            [⟨(getMonthYear fc selIdx).1, (getMonthYear fc selIdx).2,
              min (specScan pays fee ((List.range selIdx).map (getMonthYear fc)) lumpSum).2 fee,
              none⟩]) from by
      simp only [targetStep, if_pos h2]]
    rw [scan_eq pays fee fc ((List.range 12).drop (selIdx + 1)) _ _ (by
      have := min_le_left (specScan pays fee
        ((List.range selIdx).map (getMonthYear fc)) lumpSum).2 fee
      linarith)]
    simp [if_pos h2, List.append_assoc]
  · rw [show targetStep fee (getMonthYear fc selIdx)
        ((specScan pays fee ((List.range selIdx).map (getMonthYear fc)) lumpSum).2,
         (specScan pays fee ((List.range selIdx).map (getMonthYear fc)) lumpSum).1) =
        ((specScan pays fee ((List.range selIdx).map (getMonthYear fc)) lumpSum).2,
         (specScan pays fee ((List.range selIdx).map (getMonthYear fc)) lumpSum).1) from by
      simp only [targetStep, if_neg h2]]
    rw [scan_eq pays fee fc ((List.range 12).drop (selIdx + 1)) _ _ hB2]
    simp [if_neg h2]

/-! ## Agreement of the dialog preview with the save distribution -/

/-- Slot and applied amount read off a preview line. -/
def previewProj (pays : Ledger) (l : PreviewLine) : (Nat × Nat) × ℚ :=
  (lineSlot l, lineDelta pays l)

/-- Slot and applied amount read off a plan mutation. -/
def planProj (pays : Ledger) (u : Update) : (Nat × Nat) × ℚ :=
  ((u.month, u.year), updLedgerDelta pays u)

lemma foldl_rel {α β γ : Type} (f : α → γ → α) (g : β → γ → β) (R : α → β → Prop)
    (hstep : ∀ a b c, R a b → R (f a c) (g b c)) :
    ∀ (l : List γ) (a : α) (b : β), R a b → R (l.foldl f a) (l.foldl g b) := by
  intro l
  induction l with
  | nil => intro a b h; exact h
  | cons c rest ih => intro a b h; exact ih _ _ (hstep a b c h)

/-- Coupling invariant between a preview state and a save state. -/
def PreviewRel (pays : Ledger) (sp : ℚ × List PreviewLine) (su : ℚ × List Update) : Prop :=
  sp.1 = su.1 ∧ sp.2.map (previewProj pays) = su.2.map (planProj pays)

lemma preview_backfill_rel (pays : Ledger) (fee : ℚ) (fc : FiscalCtx)
    (sp : ℚ × List PreviewLine) (su : ℚ × List Update) (i : Nat)
    (h : PreviewRel pays sp su) :
    PreviewRel pays (previewBackfillStep pays fee fc sp i) (distributeStep pays fee fc su i) := by
  obtain ⟨h1, h2⟩ := h
  by_cases h0 : 0 < su.1
  · have h0' : 0 < sp.1 := h1 ▸ h0
    rcases hpay : pays (getMonthYear fc i).1 (getMonthYear fc i).2 with _ | ex
    · by_cases hfee : fee ≤ 0
      · simp only [previewBackfillStep, distributeStep, hpay, if_pos h0, if_pos h0',
          if_pos hfee, if_neg (not_lt.mpr hfee)]
        exact ⟨h1, h2⟩
      · have hfee' : 0 < fee := not_le.mp hfee
        simp only [previewBackfillStep, distributeStep, hpay, if_pos h0, if_pos h0',
          if_neg hfee, if_pos hfee']
        refine ⟨by rw [h1], ?_⟩
        simp only [List.map_append, h2, List.map_cons, List.map_nil, previewProj, planProj,
          lineSlot, lineDelta, updLedgerDelta, hpay, exAmount, h1, sub_zero]
    · by_cases hskip : ex.payment_type = some "pronto_pago_benefit" ∨ fee ≤ ex.amount
      · simp only [previewBackfillStep, distributeStep, hpay, if_pos h0, if_pos h0',
          if_pos hskip]
        exact ⟨h1, h2⟩
      · have hlt : 0 < fee - ex.amount := by
          rcases not_or.mp hskip with ⟨_, hfull⟩
          push_neg at hfull
          linarith
        simp only [previewBackfillStep, distributeStep, hpay, if_pos h0, if_pos h0',
          if_neg hskip, if_pos hlt, if_neg (not_le.mpr hlt)]
        refine ⟨by rw [h1], ?_⟩
        simp only [List.map_append, h2, List.map_cons, List.map_nil, previewProj, planProj,
          lineSlot, lineDelta, updLedgerDelta, hpay, exAmount, h1]
        norm_num
  · have h0' : ¬0 < sp.1 := h1 ▸ h0
    simp only [previewBackfillStep, distributeStep, if_neg h0, if_neg h0']
    exact ⟨h1, h2⟩

lemma preview_overflow_rel (pays : Ledger) (fee : ℚ) (fc : FiscalCtx)
    (sp : ℚ × List PreviewLine) (su : ℚ × List Update) (i : Nat)
    (h : PreviewRel pays sp su) :
    PreviewRel pays (previewOverflowStep pays fee fc sp i) (distributeStep pays fee fc su i) := by
  obtain ⟨h1, h2⟩ := h
  by_cases h0 : 0 < su.1
  · have h0' : 0 < sp.1 := h1 ▸ h0
    rcases hpay : pays (getMonthYear fc i).1 (getMonthYear fc i).2 with _ | ex
    · by_cases hfee : fee ≤ 0
      · simp only [previewOverflowStep, distributeStep, hpay, if_pos h0, if_pos h0',
          if_pos hfee, if_neg (not_lt.mpr hfee)]
        exact ⟨h1, h2⟩
      · have hfee' : 0 < fee := not_le.mp hfee
        simp only [previewOverflowStep, distributeStep, hpay, if_pos h0, if_pos h0',
          if_neg hfee, if_pos hfee']
        refine ⟨by rw [h1], ?_⟩
        simp only [List.map_append, h2, List.map_cons, List.map_nil, previewProj, planProj,
          lineSlot, lineDelta, updLedgerDelta, hpay, exAmount, h1, sub_zero, zero_add]
    · by_cases hskip : ex.payment_type = some "pronto_pago_benefit" ∨ fee ≤ ex.amount
      · simp only [previewOverflowStep, distributeStep, hpay, if_pos h0, if_pos h0',
          if_pos hskip]
        exact ⟨h1, h2⟩
      · have hlt : 0 < fee - ex.amount := by
          rcases not_or.mp hskip with ⟨_, hfull⟩
          push_neg at hfull
          linarith
        simp only [previewOverflowStep, distributeStep, hpay, if_pos h0, if_pos h0',
          if_neg hskip, if_pos hlt, if_neg (not_le.mpr hlt)]
        refine ⟨by rw [h1], ?_⟩
        simp only [List.map_append, h2, List.map_cons, List.map_nil, previewProj, planProj,
          lineSlot, lineDelta, updLedgerDelta, hpay, exAmount, h1]
  · have h0' : ¬0 < sp.1 := h1 ▸ h0
    simp only [previewOverflowStep, distributeStep, if_neg h0, if_neg h0']
    exact ⟨h1, h2⟩

lemma preview_target_rel (pays : Ledger) (fee : ℚ) (selMY : Nat × Nat)
    (sp : ℚ × List PreviewLine) (su : ℚ × List Update)
    (htarget : pays selMY.1 selMY.2 = none) (h : PreviewRel pays sp su) :
    PreviewRel pays (previewTargetStep fee selMY sp) (targetStep fee selMY su) := by
  obtain ⟨h1, h2⟩ := h
  by_cases h0 : 0 < su.1
  · have h0' : 0 < sp.1 := h1 ▸ h0
    simp only [previewTargetStep, targetStep, if_pos h0, if_pos h0']
    refine ⟨by rw [h1], ?_⟩
    simp only [List.map_append, h2, List.map_cons, List.map_nil, previewProj, planProj,
      lineSlot, lineDelta, updLedgerDelta, htarget, exAmount, h1, sub_zero]
  · have h0' : ¬0 < sp.1 := h1 ▸ h0
    simp only [previewTargetStep, targetStep, if_neg h0, if_neg h0']
    exact ⟨h1, h2⟩

/-- C10: with a positive amount and an empty target slot, the dialog preview and
the save distribution touch the same slots with the same applied amounts, in the
same order; `distributionInfo` is that list gated on having more than one line. -/
theorem preview_matches_save (pays : Ledger) (fee amt : ℚ) (fc : FiscalCtx) (selIdx : Nat)
    (hamt : 0 < amt)
    (htarget : pays (getMonthYear fc selIdx).1 (getMonthYear fc selIdx).2 = none) :
    (previewAffected pays fee fc selIdx amt).map (previewProj pays) =
        (handleSavePaymentNew pays fee fc selIdx amt).map (planProj pays) ∧
      distributionInfo pays fee fc selIdx amt
          (pays (getMonthYear fc selIdx).1 (getMonthYear fc selIdx).2) =
        (if (previewAffected pays fee fc selIdx amt).length > 1
         then some (previewAffected pays fee fc selIdx amt) else none) := by
  constructor
  · have hrel : PreviewRel pays
        (((List.range 12).drop (selIdx + 1)).foldl (previewOverflowStep pays fee fc)
          (previewTargetStep fee (getMonthYear fc selIdx)
            ((List.range selIdx).foldl (previewBackfillStep pays fee fc) (amt, []))))
        (((List.range 12).drop (selIdx + 1)).foldl (distributeStep pays fee fc)
          (targetStep fee (getMonthYear fc selIdx)
            ((List.range selIdx).foldl (distributeStep pays fee fc) (amt, [])))) := by
      refine foldl_rel (previewOverflowStep pays fee fc) (distributeStep pays fee fc)
        (PreviewRel pays) (fun a b c h => preview_overflow_rel pays fee fc a b c h) _ _ _ ?_
      refine preview_target_rel pays fee (getMonthYear fc selIdx) _ _ htarget ?_
      refine foldl_rel (previewBackfillStep pays fee fc) (distributeStep pays fee fc)
        (PreviewRel pays) (fun a b c h => preview_backfill_rel pays fee fc a b c h) _ _ _ ?_
      exact ⟨rfl, rfl⟩
    exact hrel.2
  · rw [htarget]
    simp [distributionInfo, not_le.mpr hamt]

/-! ## Quick-pay -/

lemma pendingSlots_lookup (pays : Ledger) (fc : FiscalCtx) :
    ∀ s ∈ pendingSlots pays fc, pays s.1 s.2 = none := by
  intro s hs
  rcases List.mem_map.mp hs with ⟨i, hi, rfl⟩
  have h := (List.mem_filter.mp hi).2
  simpa [Option.isNone_iff_eq_none] using h

lemma pendingSlots_take_min (pays : Ledger) (fc : FiscalCtx) :
    (pendingSlots pays fc).take (min (pendingSlots pays fc).length 11) =
      (pendingSlots pays fc).take 11 := by
  rw [min_comm, ← List.take_take, List.take_length]

/-- Reduction of `handleQuickPay` on valid inputs with at least one empty slot. -/
lemma handleQuickPay_ok (pays : Ledger) (fc : FiscalCtx) (memberId : String)
    (amt : ℚ) (d : String) (receiptUrl : Option String) (groupId : String)
    (hA : 0 < amt) (hne : pendingSlots pays fc ≠ []) :
    handleQuickPay pays fc memberId amt (some d) receiptUrl groupId =
      (match (if (pendingSlots pays fc).length ≥ 12
              then (pendingSlots pays fc)[11]? else none) with
       | some s => Except.ok
           ((((pendingSlots pays fc).take 11).map
              (quickPayEntry memberId amt (some d) receiptUrl groupId)) ++
            [quickPayBenefitEntry memberId (some d) receiptUrl groupId s])
       | none => Except.ok (((pendingSlots pays fc).take 11).map
           (quickPayEntry memberId amt (some d) receiptUrl groupId))) := by
  rw [handleQuickPay, if_neg (not_le.mpr hA)]
  simp only [Option.isNone_some, Bool.false_eq_true, if_false]
  rw [if_neg (by simpa [List.isEmpty_iff] using hne), pendingSlots_take_min]

/-- C3: with a positive per-month amount, a payment date, and `n ≥ 1` empty fiscal
slots, quick-pay creates exactly `min(n, 11)` `pronto_pago` rows of the given
amount on the first `min(n, 11)` empty slots in fiscal order, plus one zero-amount
`pronto_pago_benefit` row on the 12th empty slot iff `n ≥ 12`; all rows share the
group id, date and receipt, and no occupied slot is touched. -/
theorem quick_pay_plan (pays : Ledger) (fc : FiscalCtx) (memberId : String)
    (amt : ℚ) (d : String) (receiptUrl : Option String) (groupId : String)
    (hA : 0 < amt) (hn : 1 ≤ (pendingSlots pays fc).length) :
    ∃ l, handleQuickPay pays fc memberId amt (some d) receiptUrl groupId = Except.ok l ∧
      l.countP (fun e => decide (e.payment_type = some "pronto_pago")) =
        min (pendingSlots pays fc).length 11 ∧
      l.countP (fun e => decide (e.payment_type = some "pronto_pago_benefit")) =
        (if 12 ≤ (pendingSlots pays fc).length then 1 else 0) ∧
      (l.filter (fun e => decide (e.payment_type = some "pronto_pago"))).map
          (fun e => (e.month, e.year)) = (pendingSlots pays fc).take 11 ∧
      (∀ e ∈ l, e.payment_type = some "pronto_pago" → e.amount = amt) ∧
      (∀ e ∈ l, e.payment_type = some "pronto_pago_benefit" →
        e.amount = 0 ∧ some (e.month, e.year) = (pendingSlots pays fc)[11]?) ∧
      (∀ e ∈ l, e.member_id = memberId ∧ e.quick_pay_group_id = some groupId ∧
        e.paid_at = some d ∧ e.receipt_url = receiptUrl) ∧
      (∀ e ∈ l, pays e.month e.year = none) := by
  have hne : pendingSlots pays fc ≠ [] := by
    intro h
    rw [h] at hn
    simp at hn
  have hok := handleQuickPay_ok pays fc memberId amt d receiptUrl groupId hA hne
  have hMTlen : ((pendingSlots pays fc).take 11).length =
      min (pendingSlots pays fc).length 11 := by
    rw [List.length_take, min_comm]
  have hMTsub : ∀ s ∈ (pendingSlots pays fc).take 11, s ∈ pendingSlots pays fc :=
    fun s hs => List.take_subset 11 _ hs
  have hproj : (((pendingSlots pays fc).take 11).map
        (quickPayEntry memberId amt (some d) receiptUrl groupId)).map
      (fun e => (e.month, e.year)) = (pendingSlots pays fc).take 11 := by
    rw [List.map_map]
    have : ((fun e : Payment => (e.month, e.year)) ∘
        quickPayEntry memberId amt (some d) receiptUrl groupId) = fun s => s := by
      funext s
      simp [quickPayEntry]
    rw [this]
    exact List.map_id _
  have hins_all : ∀ e ∈ ((pendingSlots pays fc).take 11).map
      (quickPayEntry memberId amt (some d) receiptUrl groupId),
      e.payment_type = some "pronto_pago" ∧ e.amount = amt ∧ e.member_id = memberId ∧
        e.quick_pay_group_id = some groupId ∧ e.paid_at = some d ∧
        e.receipt_url = receiptUrl ∧ pays e.month e.year = none := by
    intro e he
    rcases List.mem_map.mp he with ⟨s, hs, rfl⟩
    exact ⟨rfl, rfl, rfl, rfl, rfl, rfl, pendingSlots_lookup pays fc s (hMTsub s hs)⟩
  by_cases h12 : 12 ≤ (pendingSlots pays fc).length
  · have h11 : 11 < (pendingSlots pays fc).length := lt_of_lt_of_le (by norm_num) h12
    obtain ⟨s11, hs11⟩ : ∃ x, (pendingSlots pays fc)[11]? = some x :=
      ⟨_, List.getElem?_eq_getElem h11⟩
    have hs11mem : s11 ∈ pendingSlots pays fc := by
      rcases List.getElem?_eq_some.mp hs11 with ⟨hlt, hEq⟩
      rw [← hEq]
      exact List.getElem_mem hlt
    rw [hok, if_pos h12, hs11]
    refine ⟨_, rfl, ?_, ?_, ?_, ?_, ?_, ?_, ?_⟩
    · rw [List.countP_append]
      have c1 : (((pendingSlots pays fc).take 11).map
          (quickPayEntry memberId amt (some d) receiptUrl groupId)).countP
            (fun e => decide (e.payment_type = some "pronto_pago")) =
          (((pendingSlots pays fc).take 11).map
            (quickPayEntry memberId amt (some d) receiptUrl groupId)).length := by
        rw [List.countP_eq_length]
        intro e he
        simp [(hins_all e he).1]
      rw [c1, List.length_map, hMTlen]
      simp [quickPayBenefitEntry]
    · rw [List.countP_append, if_pos h12]
      have c1 : (((pendingSlots pays fc).take 11).map
          (quickPayEntry memberId amt (some d) receiptUrl groupId)).countP
            (fun e => decide (e.payment_type = some "pronto_pago_benefit")) = 0 := by
        rw [List.countP_eq_zero]
        intro e he
        simp [(hins_all e he).1]
      rw [c1]
      simp [quickPayBenefitEntry]
    · rw [List.filter_append]
      have f1 : (((pendingSlots pays fc).take 11).map
          (quickPayEntry memberId amt (some d) receiptUrl groupId)).filter
            (fun e => decide (e.payment_type = some "pronto_pago")) =
          ((pendingSlots pays fc).take 11).map
            (quickPayEntry memberId amt (some d) receiptUrl groupId) := by
        rw [List.filter_eq_self]
        intro e he
        simp [(hins_all e he).1]
      have f2 : ([quickPayBenefitEntry memberId (some d) receiptUrl groupId s11]).filter
          (fun e => decide (e.payment_type = some "pronto_pago")) = [] := by
        simp [quickPayBenefitEntry]
      rw [f1, f2, List.append_nil, hproj]
    · intro e he
      rcases List.mem_append.mp he with h | h
      · exact fun _ => (hins_all e h).2.1
      · rcases List.mem_singleton.mp h with rfl
        intro hty
        simp [quickPayBenefitEntry] at hty
    · intro e he
      rcases List.mem_append.mp he with h | h
      · intro hty
        have := (hins_all e h).1
        rw [this] at hty
        simp at hty
      · rcases List.mem_singleton.mp h with rfl
        intro _
        refine ⟨rfl, ?_⟩
        simp [quickPayBenefitEntry]
    · intro e he
      rcases List.mem_append.mp he with h | h
      · obtain ⟨_, _, h3, h4, h5, h6, _⟩ := hins_all e h
        exact ⟨h3, h4, h5, h6⟩
      · rcases List.mem_singleton.mp h with rfl
        exact ⟨rfl, rfl, rfl, rfl⟩
    · intro e he
      rcases List.mem_append.mp he with h | h
      · exact (hins_all e h).2.2.2.2.2.2
      · rcases List.mem_singleton.mp h with rfl
        exact pendingSlots_lookup pays fc s11 hs11mem
  · rw [hok, if_neg h12]
    refine ⟨_, rfl, ?_, ?_, ?_, ?_, ?_, ?_, ?_⟩
    · have c1 : (((pendingSlots pays fc).take 11).map
          (quickPayEntry memberId amt (some d) receiptUrl groupId)).countP
            (fun e => decide (e.payment_type = some "pronto_pago")) =
          (((pendingSlots pays fc).take 11).map
            (quickPayEntry memberId amt (some d) receiptUrl groupId)).length := by
        rw [List.countP_eq_length]
        intro e he
        simp [(hins_all e he).1]
      rw [c1, List.length_map, hMTlen]
    · rw [if_neg h12, List.countP_eq_zero]
      intro e he
      simp [(hins_all e he).1]
    · have f1 : (((pendingSlots pays fc).take 11).map
          (quickPayEntry memberId amt (some d) receiptUrl groupId)).filter
            (fun e => decide (e.payment_type = some "pronto_pago")) =
          ((pendingSlots pays fc).take 11).map
            (quickPayEntry memberId amt (some d) receiptUrl groupId) := by
        rw [List.filter_eq_self]
        intro e he
        simp [(hins_all e he).1]
      rw [f1, hproj]
    · exact fun e he _ => (hins_all e he).2.1
    · intro e he hty
      have := (hins_all e he).1
      rw [this] at hty
      simp at hty
    · intro e he
      obtain ⟨_, _, h3, h4, h5, h6, _⟩ := hins_all e he
      exact ⟨h3, h4, h5, h6⟩
    · exact fun e he => (hins_all e he).2.2.2.2.2.2

/-- C9: quick-pay on a member whose 12 fiscal months all already have rows fails
with a reported error; no row list is ever produced, so nothing is inserted. -/
theorem quick_pay_all_full_rejected (pays : Ledger) (fc : FiscalCtx) (memberId : String)
    (amt : ℚ) (d receiptUrl : Option String) (groupId : String)
    (hfull : ∀ i, i < 12 → (pays (getMonthYear fc i).1 (getMonthYear fc i).2).isSome = true) :
    ∃ msg, handleQuickPay pays fc memberId amt d receiptUrl groupId = Except.error msg := by
  have hpend : pendingSlots pays fc = [] := by
    rw [pendingSlots, List.map_eq_nil_iff, List.filter_eq_nil_iff]
    intro i hi
    have h := hfull i (List.mem_range.mp hi)
    simp [Option.isNone_iff_eq_none, Option.isSome_iff_exists] at h ⊢
    rcases h with ⟨a, ha⟩
    exact fun hn => by rw [hn] at ha; cases ha
  by_cases h1 : amt ≤ 0
  · exact ⟨"El monto debe ser mayor a 0", by rw [handleQuickPay, if_pos h1]⟩
  · by_cases h2 : d.isNone = true
    · refine ⟨"Debe seleccionar una fecha de pago", ?_⟩
      rw [handleQuickPay, if_neg h1, if_pos h2]
    · refine ⟨"Este miembro ya tiene todos los pagos del ano logial actual registrados", ?_⟩
      rw [handleQuickPay, if_neg h1, if_neg h2]
      simp [hpend]

/-! ## Advance-pay -/

/-- C5: advance-pay creates exactly one `adelantado` row per requested slot at the
full monthly fee, all sharing group id, date and receipt, with no benefit row; the
total reported to the caller (modelled from spec §4.5) is `fee × count`. -/
theorem advance_pay_entries (memberId : String) (fee : ℚ) (sel : List (Nat × Nat))
    (d : String) (r : Option String) (g : String) :
    (handleAdvancePayment memberId fee sel d r g).length = sel.length ∧
      (handleAdvancePayment memberId fee sel d r g).map (fun e => (e.month, e.year)) = sel ∧
      (∀ e ∈ handleAdvancePayment memberId fee sel d r g,
        e.amount = fee ∧ e.payment_type = some "adelantado" ∧
          e.quick_pay_group_id = some g ∧ e.paid_at = some d ∧ e.receipt_url = r ∧
          e.member_id = memberId) ∧
      (∀ e ∈ handleAdvancePayment memberId fee sel d r g,
        e.payment_type ≠ some "pronto_pago_benefit") ∧
      advanceTotalAmount fee sel = fee * sel.length := by
  refine ⟨List.length_map _ _, ?_, ?_, ?_, rfl⟩
  · rw [handleAdvancePayment, List.map_map]
    have h : ((fun e : Payment => (e.month, e.year)) ∘ fun s : Nat × Nat =>
        ({ member_id := memberId, month := s.1, year := s.2, amount := fee,
           paid_at := some d, receipt_url := r,
           quick_pay_group_id := some g, payment_type := some "adelantado",
           notes := some ("Pago registrado mediante Pago por Adelantado (" ++
             toString sel.length ++ " meses).") } : Payment)) = fun s => s := by
      funext s
      rfl
    rw [h]
    exact List.map_id _
  · intro e he
    rcases List.mem_map.mp he with ⟨s, _, rfl⟩
    exact ⟨rfl, rfl, rfl, rfl, rfl, rfl⟩
  · intro e he
    rcases List.mem_map.mp he with ⟨s, _, rfl⟩
    simp [handleAdvancePayment]

/-! ## Fiscal calendar -/

/-- C6: over indices 0–11 the fiscal mapping is `(i+7, current)` for 0–5 and
`(i-5, next)` for 6–11, is injective, enumerates exactly the fiscal window's
12 (month, year) pairs, and sends 0 to (7, current) and 11 to (6, next). -/
theorem fiscal_calendar_bijection (fc : FiscalCtx) :
    (∀ i, i < 12 → getMonthYear fc i =
        (if i < 6 then (i + 7, fc.currentCalendarYear) else (i - 5, fc.nextCalendarYear))) ∧
      (∀ i j, i < 12 → j < 12 → getMonthYear fc i = getMonthYear fc j → i = j) ∧
      ((List.range 12).map (getMonthYear fc) = fiscalWindow fc) ∧
      getMonthYear fc 0 = (7, fc.currentCalendarYear) ∧
      getMonthYear fc 11 = (6, fc.nextCalendarYear) := by
  refine ⟨fun i _ => rfl, ?_, rfl, rfl, rfl⟩
  intro i j hi hj h
  by_cases h6i : i < 6 <;> by_cases h6j : j < 6 <;>
    simp only [getMonthYear, if_pos, if_neg, h6i, h6j, ite_true, ite_false, if_true, if_false,
      Prod.mk.injEq] at h <;>
    omega

/-! ## Outstanding balance and accumulated total -/

lemma foldl_add_of_step {α : Type} (f : ℚ → α → ℚ) (g : α → ℚ)
    (hf : ∀ a x, f a x = a + g x) (l : List α) :
    ∀ acc, l.foldl f acc = acc + (l.map g).sum := by
  induction l with
  | nil => intro acc; simp
  | cons x rest ih =>
      intro acc
      rw [List.foldl_cons, hf, ih, List.map_cons, List.sum_cons]
      ring

/-- C7: the outstanding aggregate of the table equals the spec's
`Σ max(0, fee - existing)` over the 12 fiscal slots (absent slot pays 0, benefit
slot contributes 0), and a `pronto_pago_benefit` row never counts toward the
accumulated-paid total. -/
theorem outstanding_balance_spec (pays : Ledger) (fc : FiscalCtx) (fee : ℚ)
    (hfee : 0 ≤ fee) :
    totalAdeudado pays fc fee = outstandingBalance pays fee fc ∧
      ∀ (kp : String × Payment) (rest : List (String × Payment)) (memberId : String),
        kp.2.payment_type = some "pronto_pago_benefit" →
        accumulatedTotal (kp :: rest) memberId = accumulatedTotal rest memberId := by
  constructor
  · refine (foldl_add_of_step _ (fun i => slotOutstanding pays fee fc i) ?_
      (List.range 12) 0).trans ?_
    · intro a i
      rcases hpay : pays (getMonthYear fc i).1 (getMonthYear fc i).2 with _ | p
      · simp [hpay, slotOutstanding, max_eq_right hfee]
      · by_cases hb : p.payment_type = some "pronto_pago_benefit"
        · simp [hpay, slotOutstanding, hb]
        · by_cases hlt : p.amount < fee
          · simp [hpay, slotOutstanding, hb, hlt,
              max_eq_right (by linarith : (0:ℚ) ≤ fee - p.amount)]
          · simp [hpay, slotOutstanding, hb, hlt,
              max_eq_left (by linarith : fee - p.amount ≤ 0)]
    · exact (zero_add _).trans rfl
  · intro kp rest memberId hb
    rw [accumulatedTotal, accumulatedTotal, List.filter_cons]
    simp [hb]

/-! ## Editing an existing entry -/

/-- C4 (amended): editing bypasses the allocator: the outcome is a direct update
of the one selected slot — amount, date, receipt, note are set, `payment_type`
is reset to `regular` — identity fields are kept and no other slot changes. -/
theorem edit_updates_single_slot (pays : Ledger) (fee : ℚ) (fc : FiscalCtx)
    (selIdx : Nat) (p : Payment) (amt : ℚ) (d r nts : Option String) (memberId : String)
    (hp : pays (getMonthYear fc selIdx).1 (getMonthYear fc selIdx).2 = some p) :
    handleSavePayment pays fee fc selIdx (some p) amt d r nts memberId =
        SaveOutcome.editSaved (editedPayment p memberId (getMonthYear fc selIdx).1
          (getMonthYear fc selIdx).2 amt d r nts) ∧
      (∀ m y, ¬(m = (getMonthYear fc selIdx).1 ∧ y = (getMonthYear fc selIdx).2) →
        applyEdit pays (getMonthYear fc selIdx).1 (getMonthYear fc selIdx).2
          (editedPayment p memberId (getMonthYear fc selIdx).1 (getMonthYear fc selIdx).2
            amt d r nts) m y = pays m y) ∧
      applyEdit pays (getMonthYear fc selIdx).1 (getMonthYear fc selIdx).2
          (editedPayment p memberId (getMonthYear fc selIdx).1 (getMonthYear fc selIdx).2
            amt d r nts) (getMonthYear fc selIdx).1 (getMonthYear fc selIdx).2 =
        some (editedPayment p memberId (getMonthYear fc selIdx).1
          (getMonthYear fc selIdx).2 amt d r nts) ∧
      (editedPayment p memberId (getMonthYear fc selIdx).1 (getMonthYear fc selIdx).2
          amt d r nts).amount = amt ∧
      (editedPayment p memberId (getMonthYear fc selIdx).1 (getMonthYear fc selIdx).2
          amt d r nts).paid_at = d ∧
      (editedPayment p memberId (getMonthYear fc selIdx).1 (getMonthYear fc selIdx).2
          amt d r nts).receipt_url = r ∧
      (editedPayment p memberId (getMonthYear fc selIdx).1 (getMonthYear fc selIdx).2
          amt d r nts).notes = nts ∧
      (editedPayment p memberId (getMonthYear fc selIdx).1 (getMonthYear fc selIdx).2
          amt d r nts).payment_type = some "regular" ∧
      (editedPayment p memberId (getMonthYear fc selIdx).1 (getMonthYear fc selIdx).2
          amt d r nts).id = p.id ∧
      (editedPayment p memberId (getMonthYear fc selIdx).1 (getMonthYear fc selIdx).2
          amt d r nts).status = p.status ∧
      (editedPayment p memberId (getMonthYear fc selIdx).1 (getMonthYear fc selIdx).2
          amt d r nts).quick_pay_group_id = p.quick_pay_group_id ∧
      (editedPayment p memberId (getMonthYear fc selIdx).1 (getMonthYear fc selIdx).2
          amt d r nts).month = (getMonthYear fc selIdx).1 ∧
      (editedPayment p memberId (getMonthYear fc selIdx).1 (getMonthYear fc selIdx).2
          amt d r nts).year = (getMonthYear fc selIdx).2 ∧
      (editedPayment p memberId (getMonthYear fc selIdx).1 (getMonthYear fc selIdx).2
          amt d r nts).member_id = memberId := by
  refine ⟨rfl, ?_, ?_, rfl, rfl, rfl, rfl, rfl, rfl, rfl, rfl, rfl, rfl, rfl⟩
  · intro m y hmy
    rw [applyEdit, if_neg hmy]
  · rw [applyEdit, if_pos ⟨rfl, rfl⟩]

/-! ## No input validation on the single-payment save -/

/-- One loop pass leaves the state unchanged when no money remains. -/
lemma foldl_distribute_nonpos (pays : Ledger) (fee : ℚ) (fc : FiscalCtx)
    (idxs : List Nat) (rem : ℚ) (us : List Update) (h : rem ≤ 0) :
    idxs.foldl (distributeStep pays fee fc) (rem, us) = (rem, us) := by
  induction idxs with
  | nil => rfl
  | cons i rest ih =>
      rw [List.foldl_cons,
        show distributeStep pays fee fc (rem, us) i = (rem, us) from by
          simp only [distributeStep, if_neg (not_lt.mpr h)]]
      exact ih

/-- C8 (amended): quick-pay rejects a non-positive per-month amount before any
store call with a user-facing message; the single-payment save performs no such
validation — a non-positive lump sum on an empty target yields an empty plan
(no mutation, but reported as a success), and on an occupied target the entry is
updated with the non-positive amount. -/
theorem payment_validation_amended :
    (∀ (pays : Ledger) (fc : FiscalCtx) (memberId : String) (amt : ℚ)
        (d receiptUrl : Option String) (g : String), amt ≤ 0 →
        handleQuickPay pays fc memberId amt d receiptUrl g =
          Except.error "El monto debe ser mayor a 0") ∧
      (∀ (pays : Ledger) (fee : ℚ) (fc : FiscalCtx) (selIdx : Nat) (amt : ℚ), amt ≤ 0 →
        handleSavePaymentNew pays fee fc selIdx amt = []) ∧
      (∀ (pays : Ledger) (fee : ℚ) (fc : FiscalCtx) (selIdx : Nat) (p : Payment) (amt : ℚ)
        (d r nts : Option String) (memberId : String),
        handleSavePayment pays fee fc selIdx (some p) amt d r nts memberId =
          SaveOutcome.editSaved (editedPayment p memberId (getMonthYear fc selIdx).1
            (getMonthYear fc selIdx).2 amt d r nts)) := by
  refine ⟨?_, ?_, fun _ _ _ _ _ _ _ _ _ _ => rfl⟩
  · intro pays fc memberId amt d receiptUrl g hle
    rw [handleQuickPay, if_pos hle]
  · intro pays fee fc selIdx amt hle
    rw [handleSavePaymentNew_eq_final]
    unfold finalState afterTargetState backfillState
    rw [foldl_distribute_nonpos pays fee fc _ amt [] hle,
      show targetStep fee (getMonthYear fc selIdx) (amt, []) = (amt, []) from by
        simp only [targetStep, if_neg (not_lt.mpr hle)],
      foldl_distribute_nonpos pays fee fc _ amt [] hle]

/-! ## Concrete fixtures -/

/-- Fiscal window 2025/2026. -/
def fcW : FiscalCtx := ⟨2025, 2026⟩

/-- A member with no rows. -/
def emptyLedger : Ledger := fun _ _ => none

/-- A member whose 12 fiscal months all have a regular row. -/
def fullLedger : Ledger := fun m y =>
  some { id := "f", member_id := "m1", month := m, year := y, amount := 50,
         paid_at := some "2025-09-01", payment_type := some "regular" }

/-- An `adelantado` row sitting on slot (9, 2025) (fiscal index 2 of `fcW`). -/
def pAdvW : Payment :=
  { id := "p1", member_id := "m1", month := 9, year := 2025, amount := 50,
    paid_at := some "2025-09-01", payment_type := some "adelantado" }

/-- A ledger holding exactly `pAdvW`. -/
def oneEntryLedger : Ledger := fun m y =>
  if m = 9 ∧ y = 2025 then some pAdvW else none

/-- C4, counterexample to the claim as stated: editing the `adelantado` entry at
fiscal index 2 changes its `payment_type` (to `regular`), a field the claim says
the edit leaves untouched. -/
theorem edit_changes_payment_type_counterexample :
    handleSavePayment oneEntryLedger 50 fcW 2 (some pAdvW) 60 (some "2025-10-01")
        none none "m1" =
      SaveOutcome.editSaved (editedPayment pAdvW "m1" 9 2025 60 (some "2025-10-01")
        none none) ∧
    (editedPayment pAdvW "m1" 9 2025 60 (some "2025-10-01") none none).payment_type ≠
      pAdvW.payment_type := by
  exact ⟨rfl, by decide⟩

/-- C8, counterexample to the claim as stated: a zero lump sum on an empty target
slot is not rejected — the save runs, produces an empty plan and reports success
rather than a validation error. -/
theorem save_payment_no_validation_counterexample :
    handleSavePayment emptyLedger 50 fcW 0 none 0 (some "2025-09-01") none none "m1" =
        SaveOutcome.distributed [] ∧
      ¬∃ msg, handleSavePayment emptyLedger 50 fcW 0 none 0 (some "2025-09-01")
          none none "m1" = SaveOutcome.validationError msg := by
  have h : handleSavePayment emptyLedger 50 fcW 0 none 0 (some "2025-09-01") none none "m1" =
      SaveOutcome.distributed [] := by decide
  refine ⟨h, ?_⟩
  rintro ⟨msg, hm⟩
  rw [h] at hm
  cases hm

/-! ## Concrete witnesses -/

/-- C1 at the all-empty ledger, fee 50, lump sum 120, target index 0. -/
theorem single_payment_three_pass_witness :
    handleSavePaymentNew emptyLedger 50 fcW 0 120 = specAllocate emptyLedger 50 fcW 0 120 :=
  single_payment_three_pass emptyLedger 50 120 fcW 0 (by norm_num) (by norm_num) rfl

/-- C2 at the all-empty ledger, fee 50, lump sum 120, target index 0. -/
theorem single_payment_conservation_witness :
    (((handleSavePaymentNew emptyLedger 50 fcW 0 120).map (updLedgerDelta emptyLedger)).sum =
        min 120 (outstandingBalance emptyLedger 50 fcW)) ∧
      ∀ u ∈ handleSavePaymentNew emptyLedger 50 fcW 0 120,
        ∀ ex, emptyLedger u.month u.year = some ex →
          ex.payment_type ≠ some "pronto_pago_benefit" ∧ ex.amount < 50 :=
  single_payment_conservation emptyLedger 50 120 fcW 0 (by norm_num) (by norm_num)
    (by norm_num) rfl

/-- C3 at the all-empty ledger (12 empty slots), per-month amount 50. -/
theorem quick_pay_plan_witness :
    ∃ l, handleQuickPay emptyLedger fcW "m1" 50 (some "2025-09-01") none "g1" =
        Except.ok l ∧
      l.countP (fun e => decide (e.payment_type = some "pronto_pago")) =
        min (pendingSlots emptyLedger fcW).length 11 := by
  obtain ⟨l, h1, h2, _⟩ := quick_pay_plan emptyLedger fcW "m1" 50 "2025-09-01" none "g1"
    (by norm_num) (by decide)
  exact ⟨l, h1, h2⟩

/-- C4 (amended) at the ledger holding one `adelantado` entry. -/
theorem edit_updates_single_slot_witness :
    handleSavePayment oneEntryLedger 50 fcW 2 (some pAdvW) 60 (some "2025-10-01")
        none none "m1" =
      SaveOutcome.editSaved (editedPayment pAdvW "m1" 9 2025 60 (some "2025-10-01")
        none none) :=
  (edit_updates_single_slot oneEntryLedger 50 fcW 2 pAdvW 60 (some "2025-10-01") none none
    "m1" (by decide)).1

/-- C7 at the all-empty ledger, fee 50. -/
theorem outstanding_balance_spec_witness :
    totalAdeudado emptyLedger fcW 50 = outstandingBalance emptyLedger 50 fcW :=
  (outstanding_balance_spec emptyLedger fcW 50 (by norm_num)).1

/-- C9 at the all-full ledger. -/
theorem quick_pay_all_full_rejected_witness :
    ∃ msg, handleQuickPay fullLedger fcW "m1" 50 (some "2025-09-01") none "g1" =
      Except.error msg :=
  quick_pay_all_full_rejected fullLedger fcW "m1" 50 (some "2025-09-01") none "g1" (by decide)

/-- C10 at the all-empty ledger, fee 50, amount 120, target index 0. -/
theorem preview_matches_save_witness :
    (previewAffected emptyLedger 50 fcW 0 120).map (previewProj emptyLedger) =
      (handleSavePaymentNew emptyLedger 50 fcW 0 120).map (planProj emptyLedger) :=
  (preview_matches_save emptyLedger 50 120 fcW 0 (by norm_num) rfl).1

end Logia
